import Mathlib

/-! Board search handlers, cloud limits handler and the Store subtree contract.

A shallow embedding of `server/api/search.go`, `server/api/limits.go` and of the
read side of the `Store` interface of `server/services/store/store.go`.

The handlers are effectful Go functions.  Every effect they perform is made explicit:
a handler is a function from the collaborators (`API`), the request and the state of the
world before the call to the list of effects it performed, in order, and the state of the
world afterwards.  Each collaborator call takes the world state and returns its result
together with the next world state, so that no assumption is made on what a collaborator
does or answers.
-/

namespace Focalboard

/-! ## Values exchanged with the collaborators -/

/-- A Go `error` value.  `ErrBadRequest` and `ErrPermission` are the values built by
`model.NewErrBadRequest` and `model.NewErrPermission`; `other` is any other error. -/
inductive GoError where
  | ErrBadRequest (reason : String)
  | ErrPermission (reason : String)
  | other (text : String)
  deriving DecidableEq, Repr

/-- The method `Error()` of an error value: its message. -/
def GoError.Error : GoError → String
  | .ErrBadRequest reason => reason
  | .ErrPermission reason => reason
  | .other text => text

/-- The constructor `model.NewErrBadRequest`. -/
def NewErrBadRequest (reason : String) : GoError := .ErrBadRequest reason

/-- The constructor `model.NewErrPermission`. -/
def NewErrPermission (reason : String) : GoError := .ErrPermission reason

/-- Modelled from the spec: `model.BoardSearchField` is declared outside the given sources.
The search field is the attribute a term is matched against, named by a string. -/
structure BoardSearchField where
  name : String
  deriving DecidableEq, Repr

/-- The constant `model.BoardSearchFieldTitle`. -/
def BoardSearchFieldTitle : BoardSearchField := ⟨"title"⟩

/-- Modelled from the spec: `model.Permission` is declared outside the given sources.
A permission is named by a string. -/
structure Permission where
  id : String
  deriving DecidableEq, Repr

/-- The constant `model.PermissionViewTeam`. -/
def PermissionViewTeam : Permission := ⟨"view_team"⟩

/-- The constant `http.StatusOK`. -/
def StatusOK : Nat := 200

/-- A byte slice, as returned by `json.Marshal`. -/
abbrev Bytes := List UInt8

/-- The builtin `len` on a Go string: its number of bytes. -/
def len (s : String) : Nat := s.utf8ByteSize

/-! ## Audit records -/

/-- The status of an audit record (`audit.Fail`, `audit.Success`). -/
inductive AuditStatus where
  | Fail
  | Success
  deriving DecidableEq, Repr

/-- The level of an audit log entry (`audit.LevelRead`). -/
inductive AuditLevel where
  | LevelRead
  deriving DecidableEq, Repr

/-- A value attached to an audit record or to a debug log line: a string or an int. -/
inductive MetaValue where
  | str (s : String)
  | int (n : Int)
  deriving DecidableEq, Repr

/-- Modelled from the spec: the audit record type lives outside the given sources.  A record
carries the event it is about, its success or failure status and the meta entries added
to it, in the order they were added. -/
structure AuditRecord where
  event : String
  status : AuditStatus
  metas : List (String × MetaValue)
  deriving DecidableEq, Repr

/-- Modelled from the spec: the method `AddMeta` of an audit record appends one entry. -/
def AuditRecord.AddMeta (rec : AuditRecord) (name : String) (val : MetaValue) : AuditRecord :=
  { rec with metas := rec.metas ++ [(name, val)] }

/-- Modelled from the spec: the method `Success` of an audit record marks it successful. -/
def AuditRecord.Success (rec : AuditRecord) : AuditRecord :=
  { rec with status := .Success }

/-! ## Requests, responses and effects -/

/-- The part of an HTTP request the handlers read. -/
structure Request where
  /-- The route variables, `mux.Vars(r)`. -/
  vars : List (String × String)
  /-- The query parameters in the order they appear, `r.URL.Query()`. -/
  query : List (String × String)
  /-- The session's user, `getUserID(r)`. -/
  userID : String
  deriving DecidableEq, Repr

/-- Indexing of the map `mux.Vars(r)`: the empty string when the key is absent. -/
def Request.Var (r : Request) (key : String) : String :=
  (r.vars.lookup key).getD ""

/-- The method `r.URL.Query().Get`: the first value of the key, empty when absent. -/
def Request.QueryGet (r : Request) (key : String) : String :=
  (r.query.lookup key).getD ""

/-- What a handler writes to the `http.ResponseWriter`, named after the helper that
writes it. -/
inductive Response where
  | errorResponse (err : GoError)
  | jsonStringResponse (code : Nat) (body : String)
  | jsonBytesResponse (code : Nat) (data : Bytes)
  deriving DecidableEq, Repr

/-- Whether a response is an error response. -/
def Response.isError : Response → Bool
  | .errorResponse _ => true
  | _ => false

/-- Whether a response is a success: a JSON body sent with status 200. -/
def Response.isSuccess : Response → Bool
  | .jsonStringResponse code _ => code == StatusOK
  | .jsonBytesResponse code _ => code == StatusOK
  | .errorResponse _ => false

/-- One effect of a handler.  A collaborator call is recorded with its arguments and with
the result it gave. -/
inductive Event (β κ : Type) where
  | BoardSearchFieldFromString (field : String) (res : Except GoError BoardSearchField)
  | HasPermissionToTeam (userID teamID : String) (permission : Permission) (res : Bool)
  | userIsGuest (userID : String) (res : Except GoError Bool)
  | SearchBoardsForUser (term : String) (searchField : BoardSearchField) (userID : String)
      (includePublicBoards : Bool) (res : Except GoError (List β))
  | GetBoardsCloudLimits (res : Except GoError κ)
  | makeAuditRecord (event : String) (initialStatus : AuditStatus)
  | LogRecord (level : AuditLevel) (rec : AuditRecord)
  | Debug (msg : String) (fields : List (String × MetaValue))
  | write (resp : Response)

/-- One call of `SearchBoardsForUser`: its four arguments and its result. -/
structure SearchCall (β : Type) where
  term : String
  searchField : BoardSearchField
  userID : String
  includePublicBoards : Bool
  result : Except GoError (List β)

/-- The collaborators of the handlers.  `σ` is the state of the world they read and change,
`β` the type of boards and `κ` the type of the cloud limits. -/
structure API (σ β κ : Type) where
  /-- The function `model.BoardSearchFieldFromString`. -/
  BoardSearchFieldFromString : String → Except GoError BoardSearchField
  /-- The method `a.permissions.HasPermissionToTeam`. -/
  HasPermissionToTeam : σ → String → String → Permission → Bool × σ
  /-- The method `a.userIsGuest`. -/
  userIsGuest : σ → String → Except GoError Bool × σ
  /-- The method `a.app.SearchBoardsForUser`. -/
  SearchBoardsForUser : σ → String → BoardSearchField → String → Bool →
    Except GoError (List β) × σ
  /-- The method `a.app.GetBoardsCloudLimits`. -/
  GetBoardsCloudLimits : σ → Except GoError κ × σ
  /-- The function `json.Marshal` on a slice of boards. -/
  marshalBoards : List β → Except GoError Bytes
  /-- The function `json.Marshal` on the cloud limits. -/
  marshalLimits : κ → Except GoError Bytes

/-- Modelled from the spec: `makeAuditRecord` lives outside the given sources.  It builds the
record of an event with the status it is given. -/
def makeAuditRecord (_r : Request) (event : String) (initialStatus : AuditStatus) :
    AuditRecord :=
  { event := event, status := initialStatus, metas := [] }

/-! ## A concrete world, for the examples -/

/-- A board of the example world: its team, its title, the names of its properties and the
users with an explicit membership. -/
structure Board where
  id : String
  teamID : String
  title : String
  properties : List String
  members : List String
  deriving DecidableEq, Repr

/-- The example world: the boards stored, the users allowed to view each team, the guests,
and the number of searches run so far. -/
structure World where
  boards : List Board
  teamViewers : List (String × String)
  guests : List String
  searches : Nat
  deriving DecidableEq, Repr

/-- Whether `term` occurs in `text`. -/
def occursIn (term text : String) : Bool :=
  text.data.tails.any fun rest => term.data.isPrefixOf rest

/-- Whether a board matches a term on a search field. -/
def Board.matches (b : Board) (term : String) (searchField : BoardSearchField) : Bool :=
  if searchField = BoardSearchFieldTitle then occursIn term b.title
  else b.properties.any fun p => occursIn term p

/-- Collaborators over the example world.  The search looks at every board of the
world, public boards included only when asked for; the session-less user is unknown to the
guest classifier. -/
def demoAPI : API World Board Nat where
  BoardSearchFieldFromString := fun field =>
    if field = "title" then .ok BoardSearchFieldTitle
    else if field = "property_name" then .ok ⟨"property_name"⟩
    else .error (.other "invalid board search field")
  HasPermissionToTeam := fun w userID teamID permission =>
    (decide (permission = PermissionViewTeam ∧ (userID, teamID) ∈ w.teamViewers), w)
  userIsGuest := fun w userID =>
    if userID = "" then (.error (.other "user not found"), w)
    else (.ok (decide (userID ∈ w.guests)), w)
  SearchBoardsForUser := fun w term searchField userID includePublicBoards =>
    (.ok (w.boards.filter fun b =>
        b.matches term searchField && (includePublicBoards || decide (userID ∈ b.members))),
      { w with searches := w.searches + 1 })
  GetBoardsCloudLimits := fun w => (.ok w.boards.length, w)
  marshalBoards := fun boards =>
    .ok (boards.flatMap fun b => b.id.data.map fun c => c.toNat.toUInt8)
  marshalLimits := fun n => .ok [n.toUInt8]

/-- An example world: two boards in two teams; `U` may view both teams, `G` is a guest who
may view team `T1` and is a member of board `B` only. -/
def demoWorld : World where
  boards := [⟨"A", "T1", "roadmap", ["status"], ["U"]⟩,
    ⟨"B", "T2", "road trip", ["budget"], ["U", "G"]⟩]
  teamViewers := [("U", "T1"), ("U", "T2"), ("G", "T1")]
  guests := ["G"]
  searches := 0

/-- A request to the example world. -/
def demoRequest (teamID term field userID : String) : Request where
  vars := [("teamID", teamID)]
  query := [("q", term), ("field", field)]
  userID := userID

section Handlers

variable {σ β κ : Type}

/-! ## `handleSearchBoards` (search.go, lines 19 to 114) -/

/-- Lines 83 to 113 of `handleSearchBoards`: what runs between the `defer` of the audit log
and the return.  Gives the effects, the audit record as it is at the return, and the world
state.  The record is held by pointer: the deferred `LogRecord` logs it as it is at the
return, with what `AddMeta` and `Success` did to it. -/
def searchBoardsAudited (a : API σ β κ) (teamID term : String) (searchField : BoardSearchField)
    (userID : String) (auditRec : AuditRecord) (s : σ) : List (Event β κ) × AuditRecord × σ :=
  let auditRec := auditRec.AddMeta "teamID" (.str teamID)
  match a.userIsGuest s userID with
  | (.error err, s1) =>
    ([.userIsGuest userID (.error err), .write (.errorResponse err)], auditRec, s1)
  | (.ok isGuest, s1) =>
    match a.SearchBoardsForUser s1 term searchField userID (!isGuest) with
    | (.error err, s2) =>
      ([.userIsGuest userID (.ok isGuest),
        .SearchBoardsForUser term searchField userID (!isGuest) (.error err),
        .write (.errorResponse err)], auditRec, s2)
    | (.ok boards, s2) =>
      match a.marshalBoards boards with
      | .error err =>
        ([.userIsGuest userID (.ok isGuest),
          .SearchBoardsForUser term searchField userID (!isGuest) (.ok boards),
          .Debug "SearchBoards" [("teamID", .str teamID), ("boardsCount", .int boards.length)],
          .write (.errorResponse err)], auditRec, s2)
      | .ok data =>
        ([.userIsGuest userID (.ok isGuest),
          .SearchBoardsForUser term searchField userID (!isGuest) (.ok boards),
          .Debug "SearchBoards" [("teamID", .str teamID), ("boardsCount", .int boards.length)],
          .write (.jsonBytesResponse StatusOK data)],
         (auditRec.AddMeta "boardsCount" (.int boards.length)).Success, s2)

/-- Lines 69 to 113 of `handleSearchBoards`: what runs once the search field is known. -/
def searchBoardsWithField (a : API σ β κ) (r : Request) (teamID term : String)
    (searchField : BoardSearchField) (s : σ) : List (Event β κ) × σ :=
  let userID := r.userID
  match a.HasPermissionToTeam s userID teamID PermissionViewTeam with
  | (false, s1) =>
    ([.HasPermissionToTeam userID teamID PermissionViewTeam false,
      .write (.errorResponse (NewErrPermission "access denied to team"))], s1)
  | (true, s1) =>
    if len term = 0 then
      ([.HasPermissionToTeam userID teamID PermissionViewTeam true,
        .write (.jsonStringResponse StatusOK "[]")], s1)
    else
      let auditRec := makeAuditRecord r "searchBoards" .Fail
      match searchBoardsAudited a teamID term searchField userID auditRec s1 with
      | (evs, finalRec, s2) =>
        ([.HasPermissionToTeam userID teamID PermissionViewTeam true,
          .makeAuditRecord "searchBoards" .Fail] ++ evs ++
          [.LogRecord .LevelRead finalRec], s2)

/-- The handler of `GET /teams/{teamID}/boards/search`. -/
def handleSearchBoards (a : API σ β κ) (r : Request) (s : σ) : List (Event β κ) × σ :=
  let teamID := r.Var "teamID"
  let term := r.QueryGet "q"
  let searchFieldText := r.QueryGet "field"
  if searchFieldText ≠ "" then
    match a.BoardSearchFieldFromString searchFieldText with
    | .error err =>
      ([.BoardSearchFieldFromString searchFieldText (.error err),
        .write (.errorResponse (NewErrBadRequest err.Error))], s)
    | .ok searchField =>
      match searchBoardsWithField a r teamID term searchField s with
      | (evs, s1) => (.BoardSearchFieldFromString searchFieldText (.ok searchField) :: evs, s1)
  else
    searchBoardsWithField a r teamID term BoardSearchFieldTitle s

/-! ## `handleSearchAllBoards` (search.go, lines 116 to 183) -/

/-- Lines 155 to 182 of `handleSearchAllBoards`: what runs between the `defer` of the audit
log and the return. -/
def searchAllBoardsAudited (a : API σ β κ) (term userID : String) (auditRec : AuditRecord)
    (s : σ) : List (Event β κ) × AuditRecord × σ :=
  match a.userIsGuest s userID with
  | (.error err, s1) =>
    ([.userIsGuest userID (.error err), .write (.errorResponse err)], auditRec, s1)
  | (.ok isGuest, s1) =>
    match a.SearchBoardsForUser s1 term BoardSearchFieldTitle userID (!isGuest) with
    | (.error err, s2) =>
      ([.userIsGuest userID (.ok isGuest),
        .SearchBoardsForUser term BoardSearchFieldTitle userID (!isGuest) (.error err),
        .write (.errorResponse err)], auditRec, s2)
    | (.ok boards, s2) =>
      match a.marshalBoards boards with
      | .error err =>
        ([.userIsGuest userID (.ok isGuest),
          .SearchBoardsForUser term BoardSearchFieldTitle userID (!isGuest) (.ok boards),
          .Debug "SearchAllBoards" [("boardsCount", .int boards.length)],
          .write (.errorResponse err)], auditRec, s2)
      | .ok data =>
        ([.userIsGuest userID (.ok isGuest),
          .SearchBoardsForUser term BoardSearchFieldTitle userID (!isGuest) (.ok boards),
          .Debug "SearchAllBoards" [("boardsCount", .int boards.length)],
          .write (.jsonBytesResponse StatusOK data)],
         (auditRec.AddMeta "boardsCount" (.int boards.length)).Success, s2)

/-- The handler of `GET /boards/search`. -/
def handleSearchAllBoards (a : API σ β κ) (r : Request) (s : σ) : List (Event β κ) × σ :=
  let term := r.QueryGet "q"
  let userID := r.userID
  if len term = 0 then
    ([.write (.jsonStringResponse StatusOK "[]")], s)
  else
    let auditRec := makeAuditRecord r "searchAllBoards" .Fail
    match searchAllBoardsAudited a term userID auditRec s with
    | (evs, finalRec, s1) =>
      ([.makeAuditRecord "searchAllBoards" .Fail] ++ evs ++ [.LogRecord .LevelRead finalRec], s1)

/-! ## `handleCloudLimits` (limits.go, lines 15 to 48) -/

/-- The handler of `GET /limits`. -/
def handleCloudLimits (a : API σ β κ) (_r : Request) (s : σ) : List (Event β κ) × σ :=
  match a.GetBoardsCloudLimits s with
  | (.error err, s1) =>
    ([.GetBoardsCloudLimits (.error err), .write (.errorResponse err)], s1)
  | (.ok boardsCloudLimits, s1) =>
    match a.marshalLimits boardsCloudLimits with
    | .error err =>
      ([.GetBoardsCloudLimits (.ok boardsCloudLimits), .write (.errorResponse err)], s1)
    | .ok data =>
      ([.GetBoardsCloudLimits (.ok boardsCloudLimits),
        .write (.jsonBytesResponse StatusOK data)], s1)

/-! ## Reading a list of effects -/

/-- The responses written, in order. -/
def responses (evs : List (Event β κ)) : List Response :=
  evs.filterMap fun
    | .write resp => some resp
    | _ => none

/-- The calls of `SearchBoardsForUser`, in order. -/
def searchCalls (evs : List (Event β κ)) : List (SearchCall β) :=
  evs.filterMap fun
    | .SearchBoardsForUser term searchField userID includePublicBoards res =>
      some ⟨term, searchField, userID, includePublicBoards, res⟩
    | _ => none

/-- The calls of `userIsGuest`, in order: the user asked about and the answer. -/
def guestCalls (evs : List (Event β κ)) : List (String × Except GoError Bool) :=
  evs.filterMap fun
    | .userIsGuest userID res => some (userID, res)
    | _ => none

/-- The arguments of the calls of `HasPermissionToTeam`, in order. -/
def permissionCalls (evs : List (Event β κ)) : List (String × String × Permission) :=
  evs.filterMap fun
    | .HasPermissionToTeam userID teamID permission _ => some (userID, teamID, permission)
    | _ => none

/-- The arguments of the calls of `BoardSearchFieldFromString`, in order. -/
def fieldCalls (evs : List (Event β κ)) : List String :=
  evs.filterMap fun
    | .BoardSearchFieldFromString field _ => some field
    | _ => none

/-- The calls of `GetBoardsCloudLimits`, in order. -/
def limitsCalls (evs : List (Event β κ)) : List (Except GoError κ) :=
  evs.filterMap fun
    | .GetBoardsCloudLimits res => some res
    | _ => none

/-- The audit records created, in order: the event and the initial status. -/
def auditCreations (evs : List (Event β κ)) : List (String × AuditStatus) :=
  evs.filterMap fun
    | .makeAuditRecord event initialStatus => some (event, initialStatus)
    | _ => none

/-- The effects that come before the first creation of an audit record. -/
def beforeAudit (evs : List (Event β κ)) : List (Event β κ) :=
  evs.takeWhile fun
    | .makeAuditRecord _ _ => false
    | _ => true

/-- The audit records logged, in order, as they are when they are logged. -/
def auditLogs (evs : List (Event β κ)) : List AuditRecord :=
  evs.filterMap fun
    | .LogRecord _ rec => some rec
    | _ => none

end Handlers

/-! ## The Store (store.go): the subtree contract

`store.go` declares the `Store` interface only; what its methods do is taken from the
specification. -/

/-- Modelled from the spec: `model.Block` is declared outside the given sources.  A block has
an identifier, the identifier of its parent (empty for a root), a type tag and a payload
the store does not interpret. -/
structure Block where
  id : String
  parentID : String
  blockType : String
  payload : String
  deriving DecidableEq, Repr

/-- Modelled from the spec: the failures of a store operation. -/
inductive StoreError where
  | NotFound
  | StorageError (text : String)
  deriving DecidableEq, Repr

/-- Modelled from the spec: the implementation of `Store` is not among the given sources.  The
state of a reachable store is the sequence of the block records it holds. -/
structure StoreState where
  blocks : List Block
  deriving DecidableEq, Repr

/-- Modelled from the spec: the record of a block, looked up by identifier; none when the
block does not exist. -/
def StoreState.getBlock (st : StoreState) (blockID : String) : Option Block :=
  st.blocks.find? fun b => b.id = blockID

/-- Modelled from the spec: `GetBlocksWithParent` returns all immediate children of
`parentID` regardless of type. -/
def StoreState.GetBlocksWithParent (st : StoreState) (parentID : String) :
    Except StoreError (List Block) :=
  .ok (st.blocks.filter fun b => b.parentID = parentID)

/-- Modelled from the spec: `GetSubTree2` returns the root and its direct children, the root
first; an empty sequence, not an error, when the root does not exist. -/
def StoreState.GetSubTree2 (st : StoreState) (blockID : String) :
    Except StoreError (List Block) :=
  match st.getBlock blockID with
  | none => .ok []
  | some root =>
    match st.GetBlocksWithParent blockID with
    | .error err => .error err
    | .ok children => .ok (root :: children)

/-- The children of each block of a list, by one parent lookup per block. -/
def StoreState.childrenOfAll (st : StoreState) :
    List Block → Except StoreError (List Block)
  | [] => .ok []
  | b :: rest =>
    match st.GetBlocksWithParent b.id with
    | .error err => .error err
    | .ok children =>
      match st.childrenOfAll rest with
      | .error err => .error err
      | .ok others => .ok (children ++ others)

/-- Modelled from the spec: `GetSubTree3` returns the root, its children and its
grandchildren, the root first; an empty sequence, not an error, when the root does not
exist. -/
def StoreState.GetSubTree3 (st : StoreState) (blockID : String) :
    Except StoreError (List Block) :=
  match st.getBlock blockID with
  | none => .ok []
  | some root =>
    match st.GetBlocksWithParent blockID with
    | .error err => .error err
    | .ok children =>
      match st.childrenOfAll children with
      | .error err => .error err
      | .ok grandchildren => .ok (root :: (children ++ grandchildren))

/-- An example store: the board `b1` with the cards `c1` and `c2`, a comment `m1` on `c1`
and a reply `m2` to it; and the board `b2` with nothing under it. -/
def demoStore : StoreState where
  blocks := [⟨"b1", "", "board", "Roadmap"⟩, ⟨"c1", "b1", "card", "first"⟩,
    ⟨"m1", "c1", "comment", "hello"⟩, ⟨"c2", "b1", "card", "second"⟩,
    ⟨"b2", "", "board", "Budget"⟩, ⟨"m2", "m1", "comment", "reply"⟩]

end Focalboard

namespace Focalboard

/-- A Go string has length zero exactly when it is the empty string. -/
theorem len_eq_zero_iff (s : String) : len s = 0 ↔ s = "" := by
  have hgo : ∀ cs : List Char, String.utf8ByteSize.go cs = 0 ↔ cs = [] := by
    intro cs
    cases cs with
    | nil => simp [String.utf8ByteSize.go]
    | cons c cs =>
      have hc := Char.utf8Size_pos c
      simp only [String.utf8ByteSize.go, reduceCtorEq, iff_false]
      omega
  cases s with
  | mk cs =>
    simp only [len, String.utf8ByteSize, hgo]
    constructor
    · intro h
      subst h
      rfl
    · intro h
      exact congrArg String.data h

section HandlerTheorems

variable {σ β κ : Type}

/-! ## The paths through the handlers -/

/-- The four ways the audited part of `handleSearchBoards` can run: the guest check fails,
the search fails, the encoding fails, or all three succeed. -/
theorem searchBoardsAudited_cases (a : API σ β κ) (teamID term : String)
    (searchField : BoardSearchField) (userID : String) (auditRec : AuditRecord) (s : σ) :
    (∃ err s1, a.userIsGuest s userID = (.error err, s1) ∧
      searchBoardsAudited a teamID term searchField userID auditRec s =
        ([.userIsGuest userID (.error err), .write (.errorResponse err)],
          auditRec.AddMeta "teamID" (.str teamID), s1)) ∨
    (∃ g s1 err s2, a.userIsGuest s userID = (.ok g, s1) ∧
      a.SearchBoardsForUser s1 term searchField userID (!g) = (.error err, s2) ∧
      searchBoardsAudited a teamID term searchField userID auditRec s =
        ([.userIsGuest userID (.ok g),
          .SearchBoardsForUser term searchField userID (!g) (.error err),
          .write (.errorResponse err)],
          auditRec.AddMeta "teamID" (.str teamID), s2)) ∨
    (∃ g s1 boards s2 err, a.userIsGuest s userID = (.ok g, s1) ∧
      a.SearchBoardsForUser s1 term searchField userID (!g) = (.ok boards, s2) ∧
      a.marshalBoards boards = .error err ∧
      searchBoardsAudited a teamID term searchField userID auditRec s =
        ([.userIsGuest userID (.ok g),
          .SearchBoardsForUser term searchField userID (!g) (.ok boards),
          .Debug "SearchBoards" [("teamID", .str teamID), ("boardsCount", .int boards.length)],
          .write (.errorResponse err)],
          auditRec.AddMeta "teamID" (.str teamID), s2)) ∨
    (∃ g s1 boards s2 data, a.userIsGuest s userID = (.ok g, s1) ∧
      a.SearchBoardsForUser s1 term searchField userID (!g) = (.ok boards, s2) ∧
      a.marshalBoards boards = .ok data ∧
      searchBoardsAudited a teamID term searchField userID auditRec s =
        ([.userIsGuest userID (.ok g),
          .SearchBoardsForUser term searchField userID (!g) (.ok boards),
          .Debug "SearchBoards" [("teamID", .str teamID), ("boardsCount", .int boards.length)],
          .write (.jsonBytesResponse StatusOK data)],
          ((auditRec.AddMeta "teamID" (.str teamID)).AddMeta "boardsCount"
            (.int boards.length)).Success, s2)) := by
  rcases hg : a.userIsGuest s userID with ⟨err | g, s1⟩
  · exact Or.inl ⟨err, s1, rfl, by simp [searchBoardsAudited, hg]⟩
  · rcases hs : a.SearchBoardsForUser s1 term searchField userID (!g) with ⟨err | boards, s2⟩
    · exact Or.inr (Or.inl ⟨g, s1, err, s2, rfl, hs, by simp [searchBoardsAudited, hg, hs]⟩)
    · rcases hm : a.marshalBoards boards with err | data
      · exact Or.inr (Or.inr (Or.inl ⟨g, s1, boards, s2, err, rfl, hs, hm,
          by simp [searchBoardsAudited, hg, hs, hm]⟩))
      · exact Or.inr (Or.inr (Or.inr ⟨g, s1, boards, s2, data, rfl, hs, hm,
          by simp [searchBoardsAudited, hg, hs, hm]⟩))

/-- The three ways `handleSearchBoards` can run once the search field is known: permission
denied, empty term, or the audited search. -/
theorem searchBoardsWithField_cases (a : API σ β κ) (r : Request) (teamID term : String)
    (searchField : BoardSearchField) (s : σ) :
    (∃ s1, a.HasPermissionToTeam s r.userID teamID PermissionViewTeam = (false, s1) ∧
      searchBoardsWithField a r teamID term searchField s =
        ([.HasPermissionToTeam r.userID teamID PermissionViewTeam false,
          .write (.errorResponse (NewErrPermission "access denied to team"))], s1)) ∨
    (∃ s1, a.HasPermissionToTeam s r.userID teamID PermissionViewTeam = (true, s1) ∧
      term = "" ∧
      searchBoardsWithField a r teamID term searchField s =
        ([.HasPermissionToTeam r.userID teamID PermissionViewTeam true,
          .write (.jsonStringResponse StatusOK "[]")], s1)) ∨
    (∃ s1, a.HasPermissionToTeam s r.userID teamID PermissionViewTeam = (true, s1) ∧
      term ≠ "" ∧
      searchBoardsWithField a r teamID term searchField s =
        (.HasPermissionToTeam r.userID teamID PermissionViewTeam true ::
          .makeAuditRecord "searchBoards" .Fail ::
          ((searchBoardsAudited a teamID term searchField r.userID
              (makeAuditRecord r "searchBoards" .Fail) s1).1 ++
            [.LogRecord .LevelRead (searchBoardsAudited a teamID term searchField r.userID
              (makeAuditRecord r "searchBoards" .Fail) s1).2.1]),
          (searchBoardsAudited a teamID term searchField r.userID
            (makeAuditRecord r "searchBoards" .Fail) s1).2.2)) := by
  rcases hp : a.HasPermissionToTeam s r.userID teamID PermissionViewTeam with ⟨_ | _, s1⟩
  · exact Or.inl ⟨s1, rfl, by simp [searchBoardsWithField, hp]⟩
  · by_cases ht : term = ""
    · exact Or.inr (Or.inl ⟨s1, rfl, ht, by
        simp [searchBoardsWithField, hp, (len_eq_zero_iff term).2 ht]⟩)
    · exact Or.inr (Or.inr ⟨s1, rfl, ht, by
        simp [searchBoardsWithField, hp, mt (len_eq_zero_iff term).1 ht]⟩)

/-- The three ways `handleSearchBoards` can treat the `field` parameter: absent, so that the
title is searched; rejected by the parser; or accepted by it. -/
theorem handleSearchBoards_cases (a : API σ β κ) (r : Request) (s : σ) :
    (r.QueryGet "field" = "" ∧
      handleSearchBoards a r s =
        searchBoardsWithField a r (r.Var "teamID") (r.QueryGet "q") BoardSearchFieldTitle s) ∨
    (∃ err, r.QueryGet "field" ≠ "" ∧
      a.BoardSearchFieldFromString (r.QueryGet "field") = .error err ∧
      handleSearchBoards a r s =
        ([.BoardSearchFieldFromString (r.QueryGet "field") (.error err),
          .write (.errorResponse (NewErrBadRequest err.Error))], s)) ∨
    (∃ f, r.QueryGet "field" ≠ "" ∧
      a.BoardSearchFieldFromString (r.QueryGet "field") = .ok f ∧
      handleSearchBoards a r s =
        (.BoardSearchFieldFromString (r.QueryGet "field") (.ok f) ::
          (searchBoardsWithField a r (r.Var "teamID") (r.QueryGet "q") f s).1,
          (searchBoardsWithField a r (r.Var "teamID") (r.QueryGet "q") f s).2)) := by
  by_cases h0 : r.QueryGet "field" = ""
  · exact Or.inl ⟨h0, by simp [handleSearchBoards, h0]⟩
  · rcases hf : a.BoardSearchFieldFromString (r.QueryGet "field") with err | f
    · exact Or.inr (Or.inl ⟨err, h0, rfl, by simp [handleSearchBoards, h0, hf]⟩)
    · exact Or.inr (Or.inr ⟨f, h0, rfl, by simp [handleSearchBoards, h0, hf]⟩)

/-- The four ways the audited part of `handleSearchAllBoards` can run. -/
theorem searchAllBoardsAudited_cases (a : API σ β κ) (term userID : String)
    (auditRec : AuditRecord) (s : σ) :
    (∃ err s1, a.userIsGuest s userID = (.error err, s1) ∧
      searchAllBoardsAudited a term userID auditRec s =
        ([.userIsGuest userID (.error err), .write (.errorResponse err)], auditRec, s1)) ∨
    (∃ g s1 err s2, a.userIsGuest s userID = (.ok g, s1) ∧
      a.SearchBoardsForUser s1 term BoardSearchFieldTitle userID (!g) = (.error err, s2) ∧
      searchAllBoardsAudited a term userID auditRec s =
        ([.userIsGuest userID (.ok g),
          .SearchBoardsForUser term BoardSearchFieldTitle userID (!g) (.error err),
          .write (.errorResponse err)], auditRec, s2)) ∨
    (∃ g s1 boards s2 err, a.userIsGuest s userID = (.ok g, s1) ∧
      a.SearchBoardsForUser s1 term BoardSearchFieldTitle userID (!g) = (.ok boards, s2) ∧
      a.marshalBoards boards = .error err ∧
      searchAllBoardsAudited a term userID auditRec s =
        ([.userIsGuest userID (.ok g),
          .SearchBoardsForUser term BoardSearchFieldTitle userID (!g) (.ok boards),
          .Debug "SearchAllBoards" [("boardsCount", .int boards.length)],
          .write (.errorResponse err)], auditRec, s2)) ∨
    (∃ g s1 boards s2 data, a.userIsGuest s userID = (.ok g, s1) ∧
      a.SearchBoardsForUser s1 term BoardSearchFieldTitle userID (!g) = (.ok boards, s2) ∧
      a.marshalBoards boards = .ok data ∧
      searchAllBoardsAudited a term userID auditRec s =
        ([.userIsGuest userID (.ok g),
          .SearchBoardsForUser term BoardSearchFieldTitle userID (!g) (.ok boards),
          .Debug "SearchAllBoards" [("boardsCount", .int boards.length)],
          .write (.jsonBytesResponse StatusOK data)],
          (auditRec.AddMeta "boardsCount" (.int boards.length)).Success, s2)) := by
  rcases hg : a.userIsGuest s userID with ⟨err | g, s1⟩
  · exact Or.inl ⟨err, s1, rfl, by simp [searchAllBoardsAudited, hg]⟩
  · rcases hs : a.SearchBoardsForUser s1 term BoardSearchFieldTitle userID (!g)
      with ⟨err | boards, s2⟩
    · exact Or.inr (Or.inl ⟨g, s1, err, s2, rfl, hs, by simp [searchAllBoardsAudited, hg, hs]⟩)
    · rcases hm : a.marshalBoards boards with err | data
      · exact Or.inr (Or.inr (Or.inl ⟨g, s1, boards, s2, err, rfl, hs, hm,
          by simp [searchAllBoardsAudited, hg, hs, hm]⟩))
      · exact Or.inr (Or.inr (Or.inr ⟨g, s1, boards, s2, data, rfl, hs, hm,
          by simp [searchAllBoardsAudited, hg, hs, hm]⟩))

/-- The two ways `handleSearchAllBoards` can run: empty term, or the audited search. -/
theorem handleSearchAllBoards_cases (a : API σ β κ) (r : Request) (s : σ) :
    (r.QueryGet "q" = "" ∧
      handleSearchAllBoards a r s = ([.write (.jsonStringResponse StatusOK "[]")], s)) ∨
    (r.QueryGet "q" ≠ "" ∧
      handleSearchAllBoards a r s =
        (.makeAuditRecord "searchAllBoards" .Fail ::
          ((searchAllBoardsAudited a (r.QueryGet "q") r.userID
              (makeAuditRecord r "searchAllBoards" .Fail) s).1 ++
            [.LogRecord .LevelRead (searchAllBoardsAudited a (r.QueryGet "q") r.userID
              (makeAuditRecord r "searchAllBoards" .Fail) s).2.1]),
          (searchAllBoardsAudited a (r.QueryGet "q") r.userID
            (makeAuditRecord r "searchAllBoards" .Fail) s).2.2)) := by
  by_cases ht : r.QueryGet "q" = ""
  · exact Or.inl ⟨ht, by simp [handleSearchAllBoards, (len_eq_zero_iff _).2 ht]⟩
  · exact Or.inr ⟨ht, by simp [handleSearchAllBoards, mt (len_eq_zero_iff _).1 ht]⟩

/-! ## The claims on the handlers -/

/-- C1: in `handleSearchBoards`, when the `field` parameter is absent or valid and the team
permission check answers false, the only response is the Permission error
`access denied to team`, the guest classifier and the search are not called, no audit record
is created, and the world is left as the permission check left it, whatever the term is. -/
theorem handleSearchBoards_permission_denied (a : API σ β κ) (r : Request) (s : σ)
    (hfield : r.QueryGet "field" = "" ∨
      ∃ f, a.BoardSearchFieldFromString (r.QueryGet "field") = .ok f)
    (hperm : (a.HasPermissionToTeam s r.userID (r.Var "teamID") PermissionViewTeam).1 = false) :
    responses (handleSearchBoards a r s).1
        = [.errorResponse (NewErrPermission "access denied to team")] ∧
      guestCalls (handleSearchBoards a r s).1 = [] ∧
      searchCalls (handleSearchBoards a r s).1 = [] ∧
      auditCreations (handleSearchBoards a r s).1 = [] ∧
      (handleSearchBoards a r s).2
        = (a.HasPermissionToTeam s r.userID (r.Var "teamID") PermissionViewTeam).2 := by
  rcases hp : a.HasPermissionToTeam s r.userID (r.Var "teamID") PermissionViewTeam with ⟨b, s1⟩
  rw [hp] at hperm
  simp only at hperm
  subst hperm
  rcases hfield with h | ⟨f, h⟩
  · simp [handleSearchBoards, searchBoardsWithField, h, hp, responses, guestCalls,
      searchCalls, auditCreations]
  · by_cases h0 : r.QueryGet "field" = ""
    · simp [handleSearchBoards, searchBoardsWithField, h0, hp, responses, guestCalls,
        searchCalls, auditCreations]
    · simp [handleSearchBoards, searchBoardsWithField, h0, h, hp, responses, guestCalls,
        searchCalls, auditCreations]

/-- C1, witness: the guest `G` searches team `T2`, which `G` may not view. -/
theorem handleSearchBoards_permission_denied_witness :
    (demoAPI.HasPermissionToTeam demoWorld "G" "T2" PermissionViewTeam).1 = false ∧
      responses (handleSearchBoards demoAPI (demoRequest "T2" "road" "title" "G") demoWorld).1
        = [.errorResponse (NewErrPermission "access denied to team")] :=
  ⟨by decide, (handleSearchBoards_permission_denied demoAPI
    (demoRequest "T2" "road" "title" "G") demoWorld
    (Or.inr ⟨BoardSearchFieldTitle, rfl⟩) (by decide)).1⟩

/-- C2: in `handleSearchBoards`, when the `field` parameter is not empty and
`BoardSearchFieldFromString` rejects it, the only response is the BadRequest error carrying
the message of the parse error, and the permission check, the guest classifier and the search
are not called; the world is untouched.  Neither the term nor the collaborators matter. -/
theorem handleSearchBoards_invalid_field (a : API σ β κ) (r : Request) (s : σ) (err : GoError)
    (hne : r.QueryGet "field" ≠ "")
    (hrej : a.BoardSearchFieldFromString (r.QueryGet "field") = .error err) :
    responses (handleSearchBoards a r s).1 = [.errorResponse (NewErrBadRequest err.Error)] ∧
      searchCalls (handleSearchBoards a r s).1 = [] ∧
      guestCalls (handleSearchBoards a r s).1 = [] ∧
      permissionCalls (handleSearchBoards a r s).1 = [] ∧
      auditCreations (handleSearchBoards a r s).1 = [] ∧
      (handleSearchBoards a r s).2 = s := by
  simp [handleSearchBoards, hne, hrej, responses, searchCalls, guestCalls, permissionCalls,
    auditCreations]

/-- C2, witness: a search on the unknown field `bogus`. -/
theorem handleSearchBoards_invalid_field_witness :
    responses (handleSearchBoards demoAPI (demoRequest "T1" "road" "bogus" "U") demoWorld).1
        = [.errorResponse (NewErrBadRequest "invalid board search field")] ∧
      permissionCalls
        (handleSearchBoards demoAPI (demoRequest "T1" "road" "bogus" "U") demoWorld).1 = [] :=
  have h := handleSearchBoards_invalid_field demoAPI (demoRequest "T1" "road" "bogus" "U")
    demoWorld (.other "invalid board search field") (by decide) rfl
  ⟨h.1, h.2.2.2.1⟩

/-- C3, as the code has it: with an empty `q`, `handleSearchAllBoards` answers 200 with body
`[]` and touches nothing; `handleSearchBoards` calls neither the search nor the guest
classifier and creates no audit record, and answers 200 with body `[]` when the `field`
parameter is absent or valid and the team permission check succeeds. -/
theorem empty_term_short_circuits (a : API σ β κ) (r : Request) (s : σ)
    (hq : r.QueryGet "q" = "") :
    (responses (handleSearchAllBoards a r s).1 = [.jsonStringResponse StatusOK "[]"] ∧
        searchCalls (handleSearchAllBoards a r s).1 = [] ∧
        guestCalls (handleSearchAllBoards a r s).1 = [] ∧
        auditCreations (handleSearchAllBoards a r s).1 = [] ∧
        (handleSearchAllBoards a r s).2 = s) ∧
      (searchCalls (handleSearchBoards a r s).1 = [] ∧
        guestCalls (handleSearchBoards a r s).1 = [] ∧
        auditCreations (handleSearchBoards a r s).1 = []) ∧
      ((r.QueryGet "field" = "" ∨
          ∃ f, a.BoardSearchFieldFromString (r.QueryGet "field") = .ok f) →
        (a.HasPermissionToTeam s r.userID (r.Var "teamID") PermissionViewTeam).1 = true →
        responses (handleSearchBoards a r s).1 = [.jsonStringResponse StatusOK "[]"]) := by
  have hW : ∀ f, searchCalls (searchBoardsWithField a r (r.Var "teamID") (r.QueryGet "q")
        f s).1 = [] ∧
      guestCalls (searchBoardsWithField a r (r.Var "teamID") (r.QueryGet "q") f s).1 = [] ∧
      auditCreations (searchBoardsWithField a r (r.Var "teamID") (r.QueryGet "q")
        f s).1 = [] ∧
      ((a.HasPermissionToTeam s r.userID (r.Var "teamID") PermissionViewTeam).1 = true →
        responses (searchBoardsWithField a r (r.Var "teamID") (r.QueryGet "q") f s).1
          = [.jsonStringResponse StatusOK "[]"]) := by
    intro f
    rcases searchBoardsWithField_cases a r (r.Var "teamID") (r.QueryGet "q") f s with
      ⟨s1, hp, h⟩ | ⟨s1, hp, _, h⟩ | ⟨s1, _, hne, _⟩
    · simp [h, hp, responses, searchCalls, guestCalls, auditCreations]
    · simp [h, hp, responses, searchCalls, guestCalls, auditCreations]
    · exact absurd hq hne
  refine ⟨?_, ?_, ?_⟩
  · rcases handleSearchAllBoards_cases a r s with ⟨_, h⟩ | ⟨hne, _⟩
    · simp [h, responses, searchCalls, guestCalls, auditCreations]
    · exact absurd hq hne
  · rcases handleSearchBoards_cases a r s with ⟨_, h⟩ | ⟨_, _, _, h⟩ | ⟨f, _, _, h⟩
    · rw [h]
      exact ⟨(hW _).1, (hW _).2.1, (hW _).2.2.1⟩
    · simp [h, searchCalls, guestCalls, auditCreations]
    · have := hW f
      simpa [h, searchCalls, guestCalls, auditCreations] using
        And.intro this.1 (And.intro this.2.1 this.2.2.1)
  · intro hfield hperm
    rcases handleSearchBoards_cases a r s with ⟨_, h⟩ | ⟨err, _, hrej, _⟩ | ⟨f, _, _, h⟩
    · rw [h]
      exact (hW _).2.2.2 hperm
    · rcases hfield with h0 | ⟨f, hf⟩
      · contradiction
      · rw [hrej] at hf
        cases hf
    · have := (hW f).2.2.2 hperm
      simpa [h, responses] using this

/-- C3, witness: an empty search by `U` in team `T1` of the example world. -/
theorem empty_term_short_circuits_witness :
    (demoRequest "T1" "" "" "U").QueryGet "q" = "" ∧
      responses (handleSearchBoards demoAPI (demoRequest "T1" "" "" "U") demoWorld).1
        = [.jsonStringResponse StatusOK "[]"] ∧
      (handleSearchAllBoards demoAPI (demoRequest "T1" "" "" "U") demoWorld).2.searches = 0 :=
  have h := empty_term_short_circuits demoAPI (demoRequest "T1" "" "" "U") demoWorld
    (by decide)
  ⟨by decide, h.2.2 (Or.inl (by decide)) (by decide), by rw [h.1.2.2.2.2]; rfl⟩

/-- C3, counterexample: an empty search by `G` in team `T2`, which `G` may not view, is
answered by the Permission error and not by 200 with body `[]`. -/
theorem empty_term_not_always_ok :
    (demoRequest "T2" "" "" "G").QueryGet "q" = "" ∧
      responses (handleSearchBoards demoAPI (demoRequest "T2" "" "" "G") demoWorld).1
        = [.errorResponse (NewErrPermission "access denied to team")] ∧
      responses (handleSearchBoards demoAPI (demoRequest "T2" "" "" "G") demoWorld).1
        ≠ [.jsonStringResponse StatusOK "[]"] := by
  decide

/-- C4: in both search handlers, every call of `SearchBoardsForUser` is made for the
requesting user, after one successful call of the guest classifier on that user, and its
last argument is the negation of the classifier's answer: false for a guest, true for
anyone else. -/
theorem search_flag_is_not_guest (a : API σ β κ) (r : Request) (s : σ)
    (T : List (Event β κ))
    (hT : T = (handleSearchBoards a r s).1 ∨ T = (handleSearchAllBoards a r s).1) :
    ∀ c ∈ searchCalls T, c.userID = r.userID ∧
      ∃ g, guestCalls T = [(r.userID, .ok g)] ∧ c.includePublicBoards = !g ∧
        (g = true → c.includePublicBoards = false) ∧
        (g = false → c.includePublicBoards = true) := by
  have hW : ∀ f, ∀ c ∈ searchCalls (searchBoardsWithField a r (r.Var "teamID")
        (r.QueryGet "q") f s).1, c.userID = r.userID ∧
      ∃ g, guestCalls (searchBoardsWithField a r (r.Var "teamID") (r.QueryGet "q") f s).1
          = [(r.userID, .ok g)] ∧ c.includePublicBoards = !g ∧
        (g = true → c.includePublicBoards = false) ∧
        (g = false → c.includePublicBoards = true) := by
    intro f
    rcases searchBoardsWithField_cases a r (r.Var "teamID") (r.QueryGet "q") f s with
      ⟨s1, _, h⟩ | ⟨s1, _, _, h⟩ | ⟨s1, _, _, h⟩
    · simp [h, searchCalls]
    · simp [h, searchCalls]
    · rcases searchBoardsAudited_cases a (r.Var "teamID") (r.QueryGet "q") f r.userID
        (makeAuditRecord r "searchBoards" .Fail) s1 with
        ⟨_, _, _, h2⟩ | ⟨_, _, _, _, _, _, h2⟩ | ⟨_, _, _, _, _, _, _, _, h2⟩ |
        ⟨_, _, _, _, _, _, _, _, h2⟩
      all_goals simp [h, h2, searchCalls, guestCalls]
  rcases hT with rfl | rfl
  · rcases handleSearchBoards_cases a r s with ⟨_, h⟩ | ⟨_, _, _, h⟩ | ⟨f, _, _, h⟩
    · rw [h]
      exact hW _
    · simp [h, searchCalls]
    · have := hW f
      simpa [h, searchCalls, guestCalls] using this
  · rcases handleSearchAllBoards_cases a r s with ⟨_, h⟩ | ⟨_, h⟩
    · simp [h, searchCalls]
    · rcases searchAllBoardsAudited_cases a (r.QueryGet "q") r.userID
        (makeAuditRecord r "searchAllBoards" .Fail) s with
        ⟨_, _, _, h2⟩ | ⟨_, _, _, _, _, _, h2⟩ | ⟨_, _, _, _, _, _, _, _, h2⟩ |
        ⟨_, _, _, _, _, _, _, _, h2⟩
      all_goals simp [h, h2, searchCalls, guestCalls]

/-- C4, witness: the guest `G` searches team `T1`; the search runs without the public
boards. -/
theorem search_flag_is_not_guest_witness :
    (searchCalls (handleSearchBoards demoAPI (demoRequest "T1" "road" "" "G") demoWorld).1).map
        (fun c => (c.userID, c.includePublicBoards)) = [("G", false)] ∧
      ∀ c ∈ searchCalls (handleSearchBoards demoAPI (demoRequest "T1" "road" "" "G")
          demoWorld).1, c.userID = "G" ∧
        ∃ g, guestCalls (handleSearchBoards demoAPI (demoRequest "T1" "road" "" "G")
            demoWorld).1 = [("G", .ok g)] ∧ c.includePublicBoards = !g ∧
          (g = true → c.includePublicBoards = false) ∧
          (g = false → c.includePublicBoards = true) :=
  ⟨by decide, search_flag_is_not_guest demoAPI (demoRequest "T1" "road" "" "G") demoWorld _
    (Or.inl rfl)⟩

/-- C6: in `handleSearchBoards`, when the `field` parameter is absent or empty the parser is
not consulted and the search is made on the title; when it is not empty and the parser
accepts it, the parser is consulted once and the search is made on the parsed field.  The
search is made, exactly once and with that field, on every path that reaches it: the
permission check succeeds, the term is not empty and the guest check succeeds.
`handleSearchAllBoards` never consults the parser, and makes its search, exactly once and
on the title, whenever the term is not empty and the guest check succeeds.  No call of the
search is ever made on another field. -/
theorem search_field_defaults_to_title (a : API σ β κ) (r : Request) (s : σ) :
    (r.QueryGet "field" = "" →
        fieldCalls (handleSearchBoards a r s).1 = [] ∧
        (∀ c ∈ searchCalls (handleSearchBoards a r s).1,
          c.searchField = BoardSearchFieldTitle) ∧
        (∀ s1 g s2,
          a.HasPermissionToTeam s r.userID (r.Var "teamID") PermissionViewTeam = (true, s1) →
          r.QueryGet "q" ≠ "" →
          a.userIsGuest s1 r.userID = (.ok g, s2) →
          searchCalls (handleSearchBoards a r s).1 =
            [⟨r.QueryGet "q", BoardSearchFieldTitle, r.userID, !g,
              (a.SearchBoardsForUser s2 (r.QueryGet "q") BoardSearchFieldTitle r.userID
                (!g)).1⟩])) ∧
      (∀ f, r.QueryGet "field" ≠ "" →
        a.BoardSearchFieldFromString (r.QueryGet "field") = .ok f →
        fieldCalls (handleSearchBoards a r s).1 = [r.QueryGet "field"] ∧
        (∀ c ∈ searchCalls (handleSearchBoards a r s).1, c.searchField = f) ∧
        (∀ s1 g s2,
          a.HasPermissionToTeam s r.userID (r.Var "teamID") PermissionViewTeam = (true, s1) →
          r.QueryGet "q" ≠ "" →
          a.userIsGuest s1 r.userID = (.ok g, s2) →
          searchCalls (handleSearchBoards a r s).1 =
            [⟨r.QueryGet "q", f, r.userID, !g,
              (a.SearchBoardsForUser s2 (r.QueryGet "q") f r.userID (!g)).1⟩])) ∧
      (fieldCalls (handleSearchAllBoards a r s).1 = [] ∧
        (∀ c ∈ searchCalls (handleSearchAllBoards a r s).1,
          c.searchField = BoardSearchFieldTitle) ∧
        (∀ g s1,
          r.QueryGet "q" ≠ "" →
          a.userIsGuest s r.userID = (.ok g, s1) →
          searchCalls (handleSearchAllBoards a r s).1 =
            [⟨r.QueryGet "q", BoardSearchFieldTitle, r.userID, !g,
              (a.SearchBoardsForUser s1 (r.QueryGet "q") BoardSearchFieldTitle r.userID
                (!g)).1⟩])) := by
  have hW : ∀ f, fieldCalls (searchBoardsWithField a r (r.Var "teamID")
        (r.QueryGet "q") f s).1 = [] ∧
      ∀ c ∈ searchCalls (searchBoardsWithField a r (r.Var "teamID")
        (r.QueryGet "q") f s).1, c.searchField = f := by
    intro f
    rcases searchBoardsWithField_cases a r (r.Var "teamID") (r.QueryGet "q") f s with
      ⟨s1, _, h⟩ | ⟨s1, _, _, h⟩ | ⟨s1, _, _, h⟩
    · simp [h, searchCalls, fieldCalls]
    · simp [h, searchCalls, fieldCalls]
    · rcases searchBoardsAudited_cases a (r.Var "teamID") (r.QueryGet "q") f r.userID
        (makeAuditRecord r "searchBoards" .Fail) s1 with
        ⟨_, _, _, h2⟩ | ⟨_, _, _, _, _, _, h2⟩ | ⟨_, _, _, _, _, _, _, _, h2⟩ |
        ⟨_, _, _, _, _, _, _, _, h2⟩
      all_goals simp [h, h2, searchCalls, fieldCalls]
  have hS : ∀ f s1 g s2,
      a.HasPermissionToTeam s r.userID (r.Var "teamID") PermissionViewTeam = (true, s1) →
      r.QueryGet "q" ≠ "" →
      a.userIsGuest s1 r.userID = (.ok g, s2) →
      searchCalls (searchBoardsWithField a r (r.Var "teamID") (r.QueryGet "q") f s).1 =
        [⟨r.QueryGet "q", f, r.userID, !g,
          (a.SearchBoardsForUser s2 (r.QueryGet "q") f r.userID (!g)).1⟩] := by
    intro f s1 g s2 hp hq hg
    have hlen : ¬ len (r.QueryGet "q") = 0 := mt (len_eq_zero_iff _).1 hq
    rcases hs : a.SearchBoardsForUser s2 (r.QueryGet "q") f r.userID (!g) with
      ⟨err | boards, s3⟩
    · simp [searchBoardsWithField, hp, hlen, searchBoardsAudited, hg, hs, searchCalls]
    · rcases hm : a.marshalBoards boards with err | data
      · simp [searchBoardsWithField, hp, hlen, searchBoardsAudited, hg, hs, hm, searchCalls]
      · simp [searchBoardsWithField, hp, hlen, searchBoardsAudited, hg, hs, hm, searchCalls]
  refine ⟨?_, ?_, ?_⟩
  · intro h0
    rcases handleSearchBoards_cases a r s with ⟨_, h⟩ | ⟨_, hne, _, _⟩ | ⟨_, hne, _, _⟩
    · rw [h]
      exact ⟨(hW _).1, (hW _).2, hS _⟩
    · exact absurd h0 hne
    · exact absurd h0 hne
  · intro f hne hf
    rcases handleSearchBoards_cases a r s with ⟨h0, _⟩ | ⟨_, _, hrej, _⟩ | ⟨f2, _, hf2, h⟩
    · exact absurd h0 hne
    · rw [hrej] at hf
      cases hf
    · rw [hf2] at hf
      cases hf
      have hw := hW f
      refine ⟨?_, ?_, ?_⟩
      · simpa [h, fieldCalls] using hw.1
      · simpa [h, searchCalls] using hw.2
      · intro s1 g s2 hp hq hg
        have hs := hS f s1 g s2 hp hq hg
        simpa [h, searchCalls] using hs
  · refine ⟨?_, ?_, ?_⟩
    · rcases handleSearchAllBoards_cases a r s with ⟨_, h⟩ | ⟨_, h⟩
      · simp [h, fieldCalls]
      · rcases searchAllBoardsAudited_cases a (r.QueryGet "q") r.userID
          (makeAuditRecord r "searchAllBoards" .Fail) s with
          ⟨_, _, _, h2⟩ | ⟨_, _, _, _, _, _, h2⟩ | ⟨_, _, _, _, _, _, _, _, h2⟩ |
          ⟨_, _, _, _, _, _, _, _, h2⟩
        all_goals simp [h, h2, fieldCalls]
    · rcases handleSearchAllBoards_cases a r s with ⟨_, h⟩ | ⟨_, h⟩
      · simp [h, searchCalls]
      · rcases searchAllBoardsAudited_cases a (r.QueryGet "q") r.userID
          (makeAuditRecord r "searchAllBoards" .Fail) s with
          ⟨_, _, _, h2⟩ | ⟨_, _, _, _, _, _, h2⟩ | ⟨_, _, _, _, _, _, _, _, h2⟩ |
          ⟨_, _, _, _, _, _, _, _, h2⟩
        all_goals simp [h, h2, searchCalls]
    · intro g s1 hq hg
      have hlen : ¬ len (r.QueryGet "q") = 0 := mt (len_eq_zero_iff _).1 hq
      rcases hs : a.SearchBoardsForUser s1 (r.QueryGet "q") BoardSearchFieldTitle r.userID
        (!g) with ⟨err | boards, s2⟩
      · simp [handleSearchAllBoards, hlen, searchAllBoardsAudited, hg, hs, searchCalls]
      · rcases hm : a.marshalBoards boards with err | data
        · simp [handleSearchAllBoards, hlen, searchAllBoardsAudited, hg, hs, hm, searchCalls]
        · simp [handleSearchAllBoards, hlen, searchAllBoardsAudited, hg, hs, hm, searchCalls]

/-- C6, witness: `U` searches team `T1` on `property_name`, and on no field at all; and `U`
searches all boards while asking for `property_name`: that search is made on the title. -/
theorem search_field_defaults_to_title_witness :
    ((searchCalls (handleSearchBoards demoAPI (demoRequest "T1" "stat" "property_name" "U")
          demoWorld).1).map (fun c => c.searchField) = [⟨"property_name"⟩] ∧
        searchCalls (handleSearchBoards demoAPI (demoRequest "T1" "stat" "property_name" "U")
          demoWorld).1 =
          [⟨"stat", ⟨"property_name"⟩, "U", !false,
            (demoAPI.SearchBoardsForUser demoWorld "stat" ⟨"property_name"⟩ "U" (!false)).1⟩]) ∧
      ((searchCalls (handleSearchBoards demoAPI (demoRequest "T1" "road" "" "U")
          demoWorld).1).map (fun c => c.searchField) = [BoardSearchFieldTitle] ∧
        searchCalls (handleSearchBoards demoAPI (demoRequest "T1" "road" "" "U")
          demoWorld).1 =
          [⟨"road", BoardSearchFieldTitle, "U", !false,
            (demoAPI.SearchBoardsForUser demoWorld "road" BoardSearchFieldTitle "U"
              (!false)).1⟩]) ∧
      ((searchCalls (handleSearchAllBoards demoAPI
          (demoRequest "T1" "road" "property_name" "U") demoWorld).1).map
            (fun c => c.searchField) = [BoardSearchFieldTitle] ∧
        searchCalls (handleSearchAllBoards demoAPI
          (demoRequest "T1" "road" "property_name" "U") demoWorld).1 =
          [⟨"road", BoardSearchFieldTitle, "U", !false,
            (demoAPI.SearchBoardsForUser demoWorld "road" BoardSearchFieldTitle "U"
              (!false)).1⟩]) :=
  ⟨⟨by decide, ((search_field_defaults_to_title demoAPI
      (demoRequest "T1" "stat" "property_name" "U") demoWorld).2.1 ⟨"property_name"⟩
      (by decide) rfl).2.2 demoWorld false demoWorld rfl (by decide) rfl⟩,
    ⟨by decide, ((search_field_defaults_to_title demoAPI
      (demoRequest "T1" "road" "" "U") demoWorld).1 (by decide)).2.2
      demoWorld false demoWorld rfl (by decide) rfl⟩,
    ⟨by decide, (search_field_defaults_to_title demoAPI
      (demoRequest "T1" "road" "property_name" "U") demoWorld).2.2.2.2
      false demoWorld (by decide) rfl⟩⟩

/-- C7: in both search handlers, an error of the guest classifier is the only response and
no search is made; an error of the search is the only response; when the search succeeds,
the only response is the error of the JSON encoder if it fails and otherwise the 200 response
carrying the encoding of the boards the search returned; and a 200 response carrying
encoded bytes is written only after a successful guest check, a successful search and a
successful encoding of exactly the boards the search returned. -/
theorem core_errors_surface (a : API σ β κ) (r : Request) (s : σ) (T : List (Event β κ))
    (hT : T = (handleSearchBoards a r s).1 ∨ T = (handleSearchAllBoards a r s).1) :
    (∀ u err, (u, Except.error err) ∈ guestCalls T →
        responses T = [.errorResponse err] ∧ searchCalls T = []) ∧
      (∀ c ∈ searchCalls T, ∀ err, c.result = .error err →
        responses T = [.errorResponse err]) ∧
      (∀ c ∈ searchCalls T, ∀ boards, c.result = .ok boards →
        (∀ err, a.marshalBoards boards = .error err → responses T = [.errorResponse err]) ∧
        (∀ data, a.marshalBoards boards = .ok data →
          responses T = [.jsonBytesResponse StatusOK data])) ∧
      (∀ code data, Response.jsonBytesResponse code data ∈ responses T →
        code = StatusOK ∧ responses T = [.jsonBytesResponse StatusOK data] ∧
        ∃ g c boards, guestCalls T = [(r.userID, .ok g)] ∧ searchCalls T = [c] ∧
          c.result = .ok boards ∧ a.marshalBoards boards = .ok data) := by
  have hW : ∀ f, ∀ T1, T1 = (searchBoardsWithField a r (r.Var "teamID")
        (r.QueryGet "q") f s).1 →
      (∀ u err, (u, Except.error err) ∈ guestCalls T1 →
        responses T1 = [.errorResponse err] ∧ searchCalls T1 = []) ∧
      (∀ c ∈ searchCalls T1, ∀ err, c.result = .error err →
        responses T1 = [.errorResponse err]) ∧
      (∀ c ∈ searchCalls T1, ∀ boards, c.result = .ok boards →
        (∀ err, a.marshalBoards boards = .error err → responses T1 = [.errorResponse err]) ∧
        (∀ data, a.marshalBoards boards = .ok data →
          responses T1 = [.jsonBytesResponse StatusOK data])) ∧
      (∀ code data, Response.jsonBytesResponse code data ∈ responses T1 →
        code = StatusOK ∧ responses T1 = [.jsonBytesResponse StatusOK data] ∧
        ∃ g c boards, guestCalls T1 = [(r.userID, .ok g)] ∧ searchCalls T1 = [c] ∧
          c.result = .ok boards ∧ a.marshalBoards boards = .ok data) := by
    intro f T1 hT1
    subst hT1
    rcases searchBoardsWithField_cases a r (r.Var "teamID") (r.QueryGet "q") f s with
      ⟨s1, _, h⟩ | ⟨s1, _, _, h⟩ | ⟨s1, _, _, h⟩
    · simp [h, responses, searchCalls, guestCalls]
    · simp [h, responses, searchCalls, guestCalls]
    · rcases searchBoardsAudited_cases a (r.Var "teamID") (r.QueryGet "q") f r.userID
        (makeAuditRecord r "searchBoards" .Fail) s1 with
        ⟨_, _, _, h2⟩ | ⟨_, _, _, _, _, _, h2⟩ | ⟨_, _, _, _, _, _, _, hm, h2⟩ |
        ⟨_, _, _, _, _, _, _, hm, h2⟩
      · simp [h, h2, responses, searchCalls, guestCalls]
      · simp [h, h2, responses, searchCalls, guestCalls]
      · simp [h, h2, hm, responses, searchCalls, guestCalls]
      · simp [h, h2, hm, responses, searchCalls, guestCalls]
  rcases hT with rfl | rfl
  · rcases handleSearchBoards_cases a r s with ⟨_, h⟩ | ⟨_, _, _, h⟩ | ⟨f, _, _, h⟩
    · exact hW _ _ (by rw [h])
    · simp [h, responses, searchCalls, guestCalls]
    · have := hW f _ rfl
      simpa [h, responses, searchCalls, guestCalls] using this
  · rcases handleSearchAllBoards_cases a r s with ⟨_, h⟩ | ⟨_, h⟩
    · simp [h, responses, searchCalls, guestCalls]
    · rcases searchAllBoardsAudited_cases a (r.QueryGet "q") r.userID
        (makeAuditRecord r "searchAllBoards" .Fail) s with
        ⟨_, _, _, h2⟩ | ⟨_, _, _, _, _, _, h2⟩ | ⟨_, _, _, _, _, _, _, hm, h2⟩ |
        ⟨_, _, _, _, _, _, _, hm, h2⟩
      · simp [h, h2, responses, searchCalls, guestCalls]
      · simp [h, h2, responses, searchCalls, guestCalls]
      · simp [h, h2, hm, responses, searchCalls, guestCalls]
      · simp [h, h2, hm, responses, searchCalls, guestCalls]

/-- C7, witness: a search by the session-less user, whom the guest classifier does not know,
and a successful search by `U`. -/
theorem core_errors_surface_witness :
    (responses (handleSearchAllBoards demoAPI (demoRequest "" "road" "" "") demoWorld).1
        = [.errorResponse (.other "user not found")] ∧
      searchCalls (handleSearchAllBoards demoAPI (demoRequest "" "road" "" "")
        demoWorld).1 = []) ∧
    (StatusOK = StatusOK ∧
      responses (handleSearchBoards demoAPI (demoRequest "T1" "road" "" "U") demoWorld).1
        = [.jsonBytesResponse StatusOK [65, 66]] ∧
      ∃ g c boards,
        guestCalls (handleSearchBoards demoAPI (demoRequest "T1" "road" "" "U") demoWorld).1
          = [("U", .ok g)] ∧
        searchCalls (handleSearchBoards demoAPI (demoRequest "T1" "road" "" "U") demoWorld).1
          = [c] ∧
        c.result = .ok boards ∧ demoAPI.marshalBoards boards = .ok [65, 66]) :=
  ⟨(core_errors_surface demoAPI (demoRequest "" "road" "" "") demoWorld _ (Or.inr rfl)).1
      "" (.other "user not found") (List.mem_singleton.2 rfl),
    (core_errors_surface demoAPI (demoRequest "T1" "road" "" "U") demoWorld _
      (Or.inl rfl)).2.2.2 StatusOK [65, 66] (by decide)⟩

/-- C9: in both search handlers, on every path on which the guest classifier or the search
is called, one audit record has been created with status Fail before any such call, it is
logged once, and the log is the last effect of the handler.  The logged record is a Success
exactly when the guest check, the search and the encoding succeeded and the 200 response was
written, and it then carries `boardsCount`, the number of boards the search returned; when
an error response was written it is still a Fail and carries no `boardsCount`. -/
theorem audit_wraps_search (a : API σ β κ) (r : Request) (s : σ) (T : List (Event β κ))
    (hT : T = (handleSearchBoards a r s).1 ∨ T = (handleSearchAllBoards a r s).1)
    (hcall : searchCalls T ≠ [] ∨ guestCalls T ≠ []) :
    ∃ name rec, auditCreations T = [(name, .Fail)] ∧
      searchCalls (beforeAudit T) = [] ∧ guestCalls (beforeAudit T) = [] ∧
      auditLogs T = [rec] ∧ T.getLast? = some (.LogRecord .LevelRead rec) ∧
      (rec.status = .Success ↔ ∃ g c boards data,
        guestCalls T = [(r.userID, .ok g)] ∧ searchCalls T = [c] ∧ c.result = .ok boards ∧
        a.marshalBoards boards = .ok data ∧
        responses T = [.jsonBytesResponse StatusOK data]) ∧
      (rec.status = .Success → ∃ c boards, searchCalls T = [c] ∧ c.result = .ok boards ∧
        rec.metas.lookup "boardsCount" = some (.int boards.length)) ∧
      (∀ err, Response.errorResponse err ∈ responses T →
        rec.status = .Fail ∧ rec.metas.lookup "boardsCount" = none) := by
  have hW : ∀ f (pre : List (Event β κ)),
      (pre = [] ∨ ∃ x res, pre = [.BoardSearchFieldFromString x res]) →
      ∀ T1, T1 = pre ++ (searchBoardsWithField a r (r.Var "teamID")
        (r.QueryGet "q") f s).1 →
      (searchCalls T1 ≠ [] ∨ guestCalls T1 ≠ []) →
      ∃ name rec, auditCreations T1 = [(name, .Fail)] ∧
        searchCalls (beforeAudit T1) = [] ∧ guestCalls (beforeAudit T1) = [] ∧
        auditLogs T1 = [rec] ∧ T1.getLast? = some (.LogRecord .LevelRead rec) ∧
        (rec.status = .Success ↔ ∃ g c boards data,
          guestCalls T1 = [(r.userID, .ok g)] ∧ searchCalls T1 = [c] ∧
          c.result = .ok boards ∧ a.marshalBoards boards = .ok data ∧
          responses T1 = [.jsonBytesResponse StatusOK data]) ∧
        (rec.status = .Success → ∃ c boards, searchCalls T1 = [c] ∧ c.result = .ok boards ∧
          rec.metas.lookup "boardsCount" = some (.int boards.length)) ∧
        (∀ err, Response.errorResponse err ∈ responses T1 →
          rec.status = .Fail ∧ rec.metas.lookup "boardsCount" = none) := by
    intro f pre hpre T1 hT1
    subst hT1
    rcases searchBoardsWithField_cases a r (r.Var "teamID") (r.QueryGet "q") f s with
      ⟨s1, _, h⟩ | ⟨s1, _, _, h⟩ | ⟨s1, _, _, h⟩
    · rcases hpre with rfl | ⟨x, res, rfl⟩ <;> simp [h, searchCalls, guestCalls]
    · rcases hpre with rfl | ⟨x, res, rfl⟩ <;> simp [h, searchCalls, guestCalls]
    · rcases searchBoardsAudited_cases a (r.Var "teamID") (r.QueryGet "q") f r.userID
        (makeAuditRecord r "searchBoards" .Fail) s1 with
        ⟨_, _, _, h2⟩ | ⟨_, _, _, _, _, _, h2⟩ | ⟨_, _, _, _, _, _, _, hm, h2⟩ |
        ⟨_, _, _, _, _, _, _, hm, h2⟩
      · rcases hpre with rfl | ⟨x, res, rfl⟩ <;>
          simp only [h, h2] <;>
          simp [responses, searchCalls, guestCalls, auditCreations, auditLogs, beforeAudit,
            makeAuditRecord, AuditRecord.AddMeta, AuditRecord.Success, List.lookup]
      · rcases hpre with rfl | ⟨x, res, rfl⟩ <;>
          simp only [h, h2] <;>
          simp [responses, searchCalls, guestCalls, auditCreations, auditLogs, beforeAudit,
            makeAuditRecord, AuditRecord.AddMeta, AuditRecord.Success, List.lookup]
      · rcases hpre with rfl | ⟨x, res, rfl⟩ <;>
          simp only [h, h2] <;>
          simp [hm, responses, searchCalls, guestCalls, auditCreations, auditLogs, beforeAudit,
            makeAuditRecord, AuditRecord.AddMeta, AuditRecord.Success, List.lookup]
      · rcases hpre with rfl | ⟨x, res, rfl⟩ <;>
          simp only [h, h2] <;>
          simp [hm, responses, searchCalls, guestCalls, auditCreations, auditLogs, beforeAudit,
            makeAuditRecord, AuditRecord.AddMeta, AuditRecord.Success, List.lookup]
  rcases hT with rfl | rfl
  · rcases handleSearchBoards_cases a r s with ⟨_, h⟩ | ⟨_, _, _, h⟩ | ⟨f, _, _, h⟩
    · exact hW _ [] (Or.inl rfl) _ (by rw [h]; rfl) hcall
    · simp [h, searchCalls, guestCalls] at hcall
    · exact hW f _ (Or.inr ⟨_, _, rfl⟩) _ (by rw [h]; rfl) hcall
  · rcases handleSearchAllBoards_cases a r s with ⟨_, h⟩ | ⟨_, h⟩
    · simp [h, searchCalls, guestCalls] at hcall
    · rcases searchAllBoardsAudited_cases a (r.QueryGet "q") r.userID
        (makeAuditRecord r "searchAllBoards" .Fail) s with
        ⟨_, _, _, h2⟩ | ⟨_, _, _, _, _, _, h2⟩ | ⟨_, _, _, _, _, _, _, hm, h2⟩ |
        ⟨_, _, _, _, _, _, _, hm, h2⟩
      · simp only [h, h2]
        simp [responses, searchCalls, guestCalls, auditCreations, auditLogs, beforeAudit,
          makeAuditRecord, AuditRecord.AddMeta, AuditRecord.Success, List.lookup]
      · simp only [h, h2]
        simp [responses, searchCalls, guestCalls, auditCreations, auditLogs, beforeAudit,
          makeAuditRecord, AuditRecord.AddMeta, AuditRecord.Success, List.lookup]
      · simp only [h, h2]
        simp [hm, responses, searchCalls, guestCalls, auditCreations, auditLogs, beforeAudit,
          makeAuditRecord, AuditRecord.AddMeta, AuditRecord.Success, List.lookup]
      · simp only [h, h2]
        simp [hm, responses, searchCalls, guestCalls, auditCreations, auditLogs, beforeAudit,
          makeAuditRecord, AuditRecord.AddMeta, AuditRecord.Success, List.lookup]

/-- C9, witness: a successful search by `U` in team `T1` is logged as a Success. -/
theorem audit_wraps_search_witness :
    auditLogs (handleSearchBoards demoAPI (demoRequest "T1" "road" "" "U") demoWorld).1
        = [⟨"searchBoards", .Success, [("teamID", .str "T1"), ("boardsCount", .int 2)]⟩] ∧
      ∃ name rec,
        auditCreations (handleSearchBoards demoAPI (demoRequest "T1" "road" "" "U")
          demoWorld).1 = [(name, .Fail)] ∧
        auditLogs (handleSearchBoards demoAPI (demoRequest "T1" "road" "" "U")
          demoWorld).1 = [rec] ∧
        (rec.status = .Success → ∃ c boards,
          searchCalls (handleSearchBoards demoAPI (demoRequest "T1" "road" "" "U")
            demoWorld).1 = [c] ∧ c.result = .ok boards ∧
          rec.metas.lookup "boardsCount" = some (.int boards.length)) :=
  ⟨by decide,
    match audit_wraps_search demoAPI (demoRequest "T1" "road" "" "U") demoWorld _ (Or.inl rfl)
      (Or.inl (List.ne_nil_of_length_pos (by decide))) with
    | ⟨name, rec, h1, _, _, h2, _, _, h5, _⟩ => ⟨name, rec, h1, h2, h5⟩⟩

/-- C5, as the code has it: `handleSearchBoards` does not hand the team on to the search.  Two
requests that differ in the route variables only, both allowed by the permission check, which
leaves the world in the same state, make the same calls of `SearchBoardsForUser` (term, field,
user and flag, no team among them), write the same responses and leave the same world. -/
theorem search_ignores_team (a : API σ β κ) (r1 r2 : Request) (s s1 : σ)
    (hquery : r1.query = r2.query) (huser : r1.userID = r2.userID)
    (hp1 : a.HasPermissionToTeam s r1.userID (r1.Var "teamID") PermissionViewTeam = (true, s1))
    (hp2 : a.HasPermissionToTeam s r2.userID (r2.Var "teamID") PermissionViewTeam
      = (true, s1)) :
    searchCalls (handleSearchBoards a r1 s).1 = searchCalls (handleSearchBoards a r2 s).1 ∧
      responses (handleSearchBoards a r1 s).1 = responses (handleSearchBoards a r2 s).1 ∧
      (handleSearchBoards a r1 s).2 = (handleSearchBoards a r2 s).2 := by
  have hA : ∀ (t1 t2 term u : String) (f : BoardSearchField) (rec1 rec2 : AuditRecord),
      searchCalls (searchBoardsAudited a t1 term f u rec1 s1).1
          = searchCalls (searchBoardsAudited a t2 term f u rec2 s1).1 ∧
        responses (searchBoardsAudited a t1 term f u rec1 s1).1
          = responses (searchBoardsAudited a t2 term f u rec2 s1).1 ∧
        (searchBoardsAudited a t1 term f u rec1 s1).2.2
          = (searchBoardsAudited a t2 term f u rec2 s1).2.2 := by
    intro t1 t2 term u f rec1 rec2
    rcases hg : a.userIsGuest s1 u with ⟨err | g, s2⟩
    · simp [searchBoardsAudited, hg, searchCalls, responses]
    · rcases hs : a.SearchBoardsForUser s2 term f u (!g) with ⟨err | boards, s3⟩
      · simp [searchBoardsAudited, hg, hs, searchCalls, responses]
      · rcases hm : a.marshalBoards boards with err | data
        · simp [searchBoardsAudited, hg, hs, hm, searchCalls, responses]
        · simp [searchBoardsAudited, hg, hs, hm, searchCalls, responses]
  have hq : ∀ key, r1.QueryGet key = r2.QueryGet key := by
    intro key
    simp [Request.QueryGet, hquery]
  rw [huser] at hp1
  have hW : ∀ f, searchCalls (searchBoardsWithField a r1 (r1.Var "teamID")
        (r1.QueryGet "q") f s).1
          = searchCalls (searchBoardsWithField a r2 (r2.Var "teamID")
            (r2.QueryGet "q") f s).1 ∧
      responses (searchBoardsWithField a r1 (r1.Var "teamID") (r1.QueryGet "q") f s).1
          = responses (searchBoardsWithField a r2 (r2.Var "teamID")
            (r2.QueryGet "q") f s).1 ∧
      (searchBoardsWithField a r1 (r1.Var "teamID") (r1.QueryGet "q") f s).2
          = (searchBoardsWithField a r2 (r2.Var "teamID") (r2.QueryGet "q") f s).2 := by
    intro f
    have hA1 := hA (r1.Var "teamID") (r2.Var "teamID") (r2.QueryGet "q") r2.userID f
      (makeAuditRecord r1 "searchBoards" .Fail) (makeAuditRecord r2 "searchBoards" .Fail)
    by_cases ht : len (r2.QueryGet "q") = 0
    · simp [searchBoardsWithField, hp1, hp2, hq, huser, ht, searchCalls, responses]
    · simp only [searchBoardsWithField, hp1, hp2, hq, ht, huser, if_false]
      simp only [searchCalls, responses] at hA1
      simp [searchCalls, responses, List.filterMap_append, hA1.1, hA1.2.1, hA1.2.2]
  by_cases h0 : r2.QueryGet "field" = ""
  · simpa [handleSearchBoards, hq, h0] using hW BoardSearchFieldTitle
  · rcases hf : a.BoardSearchFieldFromString (r2.QueryGet "field") with err | f
    · simp [handleSearchBoards, hq, h0, hf]
    · simpa [handleSearchBoards, hq, h0, hf, searchCalls, responses] using hW f

/-- C5, the failing input: in the example world `U` searches team `T1` for `trip` and is
answered with board `B` (the byte 66), a board of team `T2`: the answer is the one given to
the same search in team `T2`. -/
theorem search_ignores_team_witness :
    responses (handleSearchBoards demoAPI (demoRequest "T1" "trip" "" "U") demoWorld).1
        = [.jsonBytesResponse StatusOK [66]] ∧
      (demoWorld.boards.filter fun b => b.id = "B").map (fun b => b.teamID) = ["T2"] ∧
      responses (handleSearchBoards demoAPI (demoRequest "T1" "trip" "" "U") demoWorld).1
        = responses (handleSearchBoards demoAPI (demoRequest "T2" "trip" "" "U")
          demoWorld).1 :=
  ⟨by decide, by decide,
    (search_ignores_team demoAPI (demoRequest "T1" "trip" "" "U")
      (demoRequest "T2" "trip" "" "U") demoWorld demoWorld rfl rfl rfl rfl).2.1⟩

/-- C10: whatever the request and whatever the collaborators do, each of the three handlers
writes exactly one response, which is either an error response or a 200 success and not
both, and calls `SearchBoardsForUser` (for the limits handler, `GetBoardsCloudLimits`) at
most once. -/
theorem handlers_write_exactly_one_response (a : API σ β κ) (r : Request) (s : σ) :
    ((∃ resp, responses (handleSearchBoards a r s).1 = [resp] ∧
          resp.isError = !resp.isSuccess) ∧
        (searchCalls (handleSearchBoards a r s).1).length ≤ 1) ∧
      ((∃ resp, responses (handleSearchAllBoards a r s).1 = [resp] ∧
          resp.isError = !resp.isSuccess) ∧
        (searchCalls (handleSearchAllBoards a r s).1).length ≤ 1) ∧
      ((∃ resp, responses (handleCloudLimits a r s).1 = [resp] ∧
          resp.isError = !resp.isSuccess) ∧
        (limitsCalls (handleCloudLimits a r s).1).length ≤ 1) := by
  have hW : ∀ f, (∃ resp, responses (searchBoardsWithField a r (r.Var "teamID")
        (r.QueryGet "q") f s).1 = [resp] ∧ resp.isError = !resp.isSuccess) ∧
      (searchCalls (searchBoardsWithField a r (r.Var "teamID") (r.QueryGet "q")
        f s).1).length ≤ 1 := by
    intro f
    rcases searchBoardsWithField_cases a r (r.Var "teamID") (r.QueryGet "q") f s with
      ⟨s1, _, h⟩ | ⟨s1, _, _, h⟩ | ⟨s1, _, _, h⟩
    · simp [h, responses, searchCalls, Response.isError, Response.isSuccess]
    · simp [h, responses, searchCalls, Response.isError, Response.isSuccess]
    · rcases searchBoardsAudited_cases a (r.Var "teamID") (r.QueryGet "q") f r.userID
        (makeAuditRecord r "searchBoards" .Fail) s1 with
        ⟨_, _, _, h2⟩ | ⟨_, _, _, _, _, _, h2⟩ | ⟨_, _, _, _, _, _, _, _, h2⟩ |
        ⟨_, _, _, _, _, _, _, _, h2⟩
      all_goals simp [h, h2, responses, searchCalls, Response.isError, Response.isSuccess]
  refine ⟨?_, ?_, ?_⟩
  · rcases handleSearchBoards_cases a r s with ⟨_, h⟩ | ⟨_, _, _, h⟩ | ⟨f, _, _, h⟩
    · rw [h]
      exact hW _
    · simp [h, responses, searchCalls, Response.isError, Response.isSuccess]
    · have := hW f
      simpa [h, responses, searchCalls] using this
  · rcases handleSearchAllBoards_cases a r s with ⟨_, h⟩ | ⟨_, h⟩
    · simp [h, responses, searchCalls, Response.isError, Response.isSuccess]
    · rcases searchAllBoardsAudited_cases a (r.QueryGet "q") r.userID
        (makeAuditRecord r "searchAllBoards" .Fail) s with
        ⟨_, _, _, h2⟩ | ⟨_, _, _, _, _, _, h2⟩ | ⟨_, _, _, _, _, _, _, _, h2⟩ |
        ⟨_, _, _, _, _, _, _, _, h2⟩
      all_goals simp [h, h2, responses, searchCalls, Response.isError, Response.isSuccess]
  · rcases hl : a.GetBoardsCloudLimits s with ⟨err | limits, s1⟩
    · simp [handleCloudLimits, hl, responses, limitsCalls, Response.isError,
        Response.isSuccess]
    · rcases hm : a.marshalLimits limits with err | data
      · simp [handleCloudLimits, hl, hm, responses, limitsCalls, Response.isError,
          Response.isSuccess]
      · simp [handleCloudLimits, hl, hm, responses, limitsCalls, Response.isError,
          Response.isSuccess]

end HandlerTheorems

/-! ## The subtree contract of the Store -/

/-- The result of `childrenOfAll`: it never fails, and holds exactly the stored blocks whose
parent is one of the given blocks. -/
theorem childrenOfAll_spec (st : StoreState) (bs : List Block) :
    ∃ out, st.childrenOfAll bs = .ok out ∧
      ∀ b, b ∈ out ↔ b ∈ st.blocks ∧ ∃ c ∈ bs, b.parentID = c.id := by
  induction bs with
  | nil => exact ⟨[], rfl, by simp⟩
  | cons c rest ih =>
    obtain ⟨out, hout, hmem⟩ := ih
    refine ⟨(st.blocks.filter fun b => b.parentID = c.id) ++ out, ?_, ?_⟩
    · simp [StoreState.childrenOfAll, StoreState.GetBlocksWithParent, hout]
    · intro b
      simp only [List.mem_append, List.mem_filter, decide_eq_true_eq, hmem, List.mem_cons,
        exists_eq_or_imp]
      tauto

/-- C8: on the store modelled from the specification.  When a block with the identifier
exists, `GetSubTree2` returns a root block with that identifier first, followed by exactly
the stored blocks whose parent is that identifier, and `GetSubTree3` returns the same
sequence followed by exactly the grandchildren; with no children both return the root
alone.  When no block has the identifier, both return the empty sequence and no error. -/
theorem subtree_contract (st : StoreState) (blockID : String) :
    ((∃ b ∈ st.blocks, b.id = blockID) →
      ∃ root children grandchildren,
        root ∈ st.blocks ∧ root.id = blockID ∧
        st.GetSubTree2 blockID = .ok (root :: children) ∧
        st.GetSubTree3 blockID = .ok (root :: (children ++ grandchildren)) ∧
        (∀ b, b ∈ children ↔ b ∈ st.blocks ∧ b.parentID = blockID) ∧
        (∀ b, b ∈ grandchildren ↔
          b ∈ st.blocks ∧ ∃ c ∈ st.blocks, c.parentID = blockID ∧ b.parentID = c.id) ∧
        ((∀ b ∈ st.blocks, b.parentID ≠ blockID) →
          st.GetSubTree2 blockID = .ok [root] ∧ st.GetSubTree3 blockID = .ok [root])) ∧
      ((∀ b ∈ st.blocks, b.id ≠ blockID) →
        st.GetSubTree2 blockID = .ok [] ∧ st.GetSubTree3 blockID = .ok []) := by
  constructor
  · rintro ⟨b0, hb0, hid0⟩
    rcases hfind : st.blocks.find? (fun b => decide (b.id = blockID)) with _ | root
    · rw [List.find?_eq_none] at hfind
      exact absurd hid0 (by simpa using hfind b0 hb0)
    · have hroot_mem : root ∈ st.blocks := List.mem_of_find?_eq_some hfind
      have hroot_id : root.id = blockID := by simpa using List.find?_some hfind
      obtain ⟨gc, hgc, hgcmem⟩ :=
        childrenOfAll_spec st (st.blocks.filter fun b => b.parentID = blockID)
      refine ⟨root, st.blocks.filter fun b => b.parentID = blockID, gc, hroot_mem, hroot_id,
        ?_, ?_, ?_, ?_, ?_⟩
      · simp [StoreState.GetSubTree2, StoreState.getBlock, StoreState.GetBlocksWithParent,
          hfind]
      · simp [StoreState.GetSubTree3, StoreState.getBlock, StoreState.GetBlocksWithParent,
          hfind, hgc]
      · intro b
        simp
      · intro b
        rw [hgcmem]
        simp only [List.mem_filter, decide_eq_true_eq]
        constructor
        · rintro ⟨hb, c, ⟨hc, hcp⟩, hbc⟩
          exact ⟨hb, c, hc, hcp, hbc⟩
        · rintro ⟨hb, c, hc, hcp, hbc⟩
          exact ⟨hb, c, ⟨hc, hcp⟩, hbc⟩
      · intro hnone
        have hnil : (st.blocks.filter fun b => b.parentID = blockID) = [] := by
          rw [List.filter_eq_nil_iff]
          intro b hb
          simpa using hnone b hb
        simp [StoreState.GetSubTree2, StoreState.GetSubTree3, StoreState.getBlock,
          StoreState.GetBlocksWithParent, hfind, hnil, StoreState.childrenOfAll]
  · intro hnone
    have hfind : st.blocks.find? (fun b => decide (b.id = blockID)) = none := by
      rw [List.find?_eq_none]
      intro b hb
      simpa using hnone b hb
    simp [StoreState.GetSubTree2, StoreState.GetSubTree3, StoreState.getBlock, hfind]

/-- C8, witness: in the example store the subtree of depth two of `b1` is `b1, c1, c2`, its
subtree of depth three adds `m1` and not `m2`, the subtree of the childless `b2` is `b2`
alone, and the subtree of the unknown `zz` is empty. -/
theorem subtree_contract_witness :
    (demoStore.GetSubTree2 "b1").map (fun bs => bs.map fun b => b.id)
        = .ok ["b1", "c1", "c2"] ∧
      (demoStore.GetSubTree3 "b1").map (fun bs => bs.map fun b => b.id)
        = .ok ["b1", "c1", "c2", "m1"] ∧
      (demoStore.GetSubTree3 "b2").map (fun bs => bs.map fun b => b.id) = .ok ["b2"] ∧
      (demoStore.GetSubTree2 "zz" = .ok [] ∧ demoStore.GetSubTree3 "zz" = .ok []) :=
  ⟨rfl, rfl, rfl, (subtree_contract demoStore "zz").2 (by decide)⟩

end Focalboard
